import Mathlib

/-!
Verification development for the x-to-obsidian pipeline.

The repository turns scraped X/Twitter bookmark records into Obsidian
notes: a Chrome extension scrapes the DOM and can retract bookmarks, a
Bun/Effect server analyzes each record with an LLM and writes a markdown
note per record, deduplicated by tweet identity.

This file shallowly embeds the relevant program parts:
* `slugify`, `generateFrontmatter`, `generateContent`, `write`,
  `isDuplicate`, `loadProcessedTweetIds` from
  packages/server/src/services/ObsidianWriter.ts (the cache-bearing
  version, which is the one the claims cite);
* `handleBookmarks` from packages/server/src/routes/bookmarks.ts;
* the retry pipeline of packages/server/src/services/Claude.ts combined
  with the parse step of BookmarkAnalyzer.ts;
* `unbookmarkTweet`, the UNBOOKMARK_TWEETS handler and
  `scrapeVisibleTweetsWithOptions` from packages/extension/src/content.ts;
* an orchestration run modelled from the spec (the background
  orchestrator script is not among the sources).

Filesystem, DOM and network are modelled as explicit state / oracles.
-/

namespace XObs

/-! ### Character classes (JS regex classes restricted to the ASCII range) -/

/-- JS `\s` (ASCII part): space, tab, newline, carriage return, vertical
tab, form feed. -/
def isWsChar (c : Char) : Bool :=
  c == ' ' || c == '\t' || c == '\n' || c == '\r' || c == '\x0b' || c == '\x0c'

/-- `[a-z]` -/
def isLowerChar (c : Char) : Bool := 'a' ≤ c && c ≤ 'z'

/-- `[0-9]` -/
def isDigitChar (c : Char) : Bool := '0' ≤ c && c ≤ '9'

/-- The character class `[a-z0-9\s-]` kept by slugify's first replace. -/
def keepChar (c : Char) : Bool := isLowerChar c || isDigitChar c || isWsChar c || c == '-'

/-- A character admissible in a finished slug: lowercase alphanumeric or
hyphen. -/
def slugChar (c : Char) : Bool := isLowerChar c || isDigitChar c || c == '-'

/-! ### slugify (ObsidianWriter.ts)

The source lowercases, deletes every character outside `[a-z0-9\s-]`,
replaces each whitespace run by a hyphen, collapses hyphen runs, slices to
the first 50 characters and strips a trailing hyphen. -/

/-- Global replacement of `p`-runs: every maximal run of characters
satisfying `p` becomes the single character `r`.  The flag remembers
whether the previous character was part of a run. -/
def replaceRunsAux (p : Char → Bool) (r : Char) : Bool → List Char → List Char
  | _, [] => []
  | inRun, c :: cs =>
    if p c then
      if inRun then replaceRunsAux p r true cs
      else r :: replaceRunsAux p r true cs
    else c :: replaceRunsAux p r false cs

def replaceRuns (p : Char → Bool) (r : Char) (l : List Char) : List Char :=
  replaceRunsAux p r false l

/-- Final step of slugify: drop a single trailing hyphen. -/
def dropTrailingHyphen (l : List Char) : List Char :=
  if l.getLast? = some '-' then l.dropLast else l

def slugifyChars (cs : List Char) : List Char :=
  let lowered := cs.map Char.toLower
  let filtered := lowered.filter keepChar
  let hyphened := replaceRuns isWsChar '-' filtered
  let collapsed := replaceRuns (fun c => c == '-') '-' hyphened
  dropTrailingHyphen (collapsed.take 50)

def slugify (s : String) : String := ⟨slugifyChars s.data⟩

/-- No two adjacent hyphens. -/
def noHyphenRun : List Char → Bool
  | [] => true
  | [_] => true
  | a :: b :: rest => !(a == '-' && b == '-') && noHyphenRun (b :: rest)

/-- The well-formedness predicate of the spec for a slug: lowercase
alphanumerics and hyphens only, hyphen runs collapsed, at most 50
characters. -/
def slugOk (s : String) : Bool :=
  s.data.all slugChar && noHyphenRun s.data && decide (s.data.length ≤ 50)

/-! ### Data model (packages/core/src/schema.ts) -/

inductive MediaType | image | video | gif
deriving DecidableEq, Repr

structure Media where
  type : MediaType
  url : String
  alt : Option String
deriving DecidableEq, Repr

structure Link where
  url : String
  displayUrl : String
deriving DecidableEq, Repr

/-- `RawBookmark`: the scraped record.  The optional quoted tweet makes the
type recursive, hence an inductive with projection functions. -/
inductive RawBookmark where
  | mk
      (tweetId : String) (tweetUrl : String)
      (authorHandle : String) (authorDisplayName : String)
      (text : String) (timestamp : String)
      (media : List Media) (quotedTweet : Option RawBookmark)
      (isThread : Bool) (threadTweets : Option (List String))
      (links : List Link)
deriving Repr

def RawBookmark.tweetId : RawBookmark → String
  | .mk a _ _ _ _ _ _ _ _ _ _ => a
def RawBookmark.tweetUrl : RawBookmark → String
  | .mk _ a _ _ _ _ _ _ _ _ _ => a
def RawBookmark.authorHandle : RawBookmark → String
  | .mk _ _ a _ _ _ _ _ _ _ _ => a
def RawBookmark.authorDisplayName : RawBookmark → String
  | .mk _ _ _ a _ _ _ _ _ _ _ => a
def RawBookmark.text : RawBookmark → String
  | .mk _ _ _ _ a _ _ _ _ _ _ => a
def RawBookmark.timestamp : RawBookmark → String
  | .mk _ _ _ _ _ a _ _ _ _ _ => a
def RawBookmark.media : RawBookmark → List Media
  | .mk _ _ _ _ _ _ a _ _ _ _ => a
def RawBookmark.quotedTweet : RawBookmark → Option RawBookmark
  | .mk _ _ _ _ _ _ _ a _ _ _ => a
def RawBookmark.isThread : RawBookmark → Bool
  | .mk _ _ _ _ _ _ _ _ a _ _ => a
def RawBookmark.threadTweets : RawBookmark → Option (List String)
  | .mk _ _ _ _ _ _ _ _ _ a _ => a
def RawBookmark.links : RawBookmark → List Link
  | .mk _ _ _ _ _ _ _ _ _ _ a => a

inductive BookmarkCategory | thread | link | image | quote | standalone
deriving DecidableEq, Repr

def BookmarkCategory.str : BookmarkCategory → String
  | .thread => "thread"
  | .link => "link"
  | .image => "image"
  | .quote => "quote"
  | .standalone => "standalone"

structure AnalyzedBookmark where
  raw : RawBookmark
  category : BookmarkCategory
  suggestedPath : String
  tags : List String
  title : String
  summary : Option String
  extractedContent : Option String
deriving Repr

/-- `ObsidianNote`: relative path, frontmatter mapping, body. -/
structure ObsidianNote where
  path : String
  frontmatter : List (String × String)
  content : String
deriving DecidableEq, Repr

/-! ### Note rendering (ObsidianWriter.ts) -/

/-- `timestamp.split("T")[0]` -/
def dateOf (ts : String) : String := ⟨ts.data.takeWhile (fun c => c ≠ 'T')⟩

def generateFrontmatter (b : AnalyzedBookmark) : String :=
  let d := dateOf b.raw.timestamp
  String.intercalate "\n"
    (["---", "category:", "  - \"[[Bookmarks]]\"", "tags:", "  - bookmarks",
      "  - twitter", "author:",
      "  - \"[[" ++ b.raw.authorDisplayName ++ "]]\"",
      "url: " ++ b.raw.tweetUrl,
      "created: " ++ d,
      "published: " ++ d,
      "topics:"]
     ++ b.tags.map (fun t => "  - \"[[" ++ t ++ "]]\"")
     ++ ["tweet_id: \"" ++ b.raw.tweetId ++ "\"",
         "bookmark_type: " ++ b.category.str,
         "---"])

/-- Each newline of the quoted text becomes a newline plus a quote mark,
as in the source's global replace. -/
def quoteNewlines : List Char → List Char
  | [] => []
  | c :: cs =>
    if c = '\n' then '\n' :: '>' :: ' ' :: quoteNewlines cs
    else c :: quoteNewlines cs

def mediaLine (m : Media) : String :=
  match m.type with
  | .image =>
    let alt := match m.alt with | some a => a | none => ""
    "![" ++ alt ++ "](" ++ m.url ++ ")"
  | t => "- [" ++ (match t with | .video => "video" | _ => "gif") ++ "](" ++ m.url ++ ")"

def generateContent (b : AnalyzedBookmark) : String :=
  let parts : List String :=
    ["# " ++ b.title, ""]
    ++ ["> " ++ ⟨quoteNewlines b.raw.text.data⟩, ""]
    ++ (match b.summary with
        | some s => if s = "" then [] else ["## Summary", "", s, ""]
        | none => [])
    ++ (match b.category, b.raw.threadTweets with
        | .thread, some ts =>
          if ts.length = 0 then []
          else ["## Full Thread", ""]
               ++ (ts.enum.map (fun p => toString (p.1 + 1) ++ ". " ++ p.2))
               ++ [""]
        | _, _ => [])
    ++ (match b.raw.quotedTweet with
        | some q => ["## Quoted Tweet", "",
                     "> **@" ++ q.authorHandle ++ "**: " ++ q.text, ""]
        | none => [])
    ++ (if b.raw.links.length > 0 then
          ["## Links", ""]
          ++ b.raw.links.map (fun l => "- [" ++ l.displayUrl ++ "](" ++ l.url ++ ")")
          ++ [""]
        else [])
    ++ (if b.raw.media.length > 0 then
          ["## Media", ""] ++ b.raw.media.map mediaLine ++ [""]
        else [])
  String.intercalate "\n" parts

def fullContent (b : AnalyzedBookmark) : String :=
  generateFrontmatter b ++ "\n\n" ++ generateContent b

/-! ### Cache hydration: the tweet_id regex (ObsidianWriter.ts,
`loadProcessedTweetIds`)

The source matches each note's content against the pattern
`tweet_id:` + optional whitespace + optional quote + digits (captured) +
optional quote, and adds the captured digit group.  The scan below mirrors
JS first-match semantics: leftmost start position wins; the whitespace
star and the digit plus are greedy, and since neither a whitespace
character nor a quote is a digit, backtracking cannot produce a match that
maximal munch misses. -/

def startsWithChars : List Char → List Char → Bool
  | [], _ => true
  | _, [] => false
  | p :: ps, c :: cs => p == c && startsWithChars ps cs

/-- `endsWith`, spelled out on character lists so that it evaluates in
the kernel. -/
def endsWithStr (suf s : String) : Bool :=
  startsWithChars suf.data.reverse s.data.reverse

/-- Attempt the pattern anchored at the head of `cs`; returns the captured
digit group. -/
def matchTweetIdAt (cs : List Char) : Option (List Char) :=
  if startsWithChars "tweet_id:".data cs then
    let r1 := (cs.drop 9).dropWhile isWsChar
    let r2 := match r1 with
      | '"' :: rest => rest
      | _ => r1
    let ds := r2.takeWhile isDigitChar
    if ds.isEmpty then none else some ds
  else none

/-- Leftmost match over the whole content. -/
def scanTweetId : List Char → Option (List Char)
  | [] => none
  | c :: cs =>
    match matchTweetIdAt (c :: cs) with
    | some ds => some ds
    | none => scanTweetId cs

def findTweetId (content : String) : Option String :=
  (scanTweetId content.data).map (fun l => ⟨l⟩)

/-! ### The Obsidian writer (ObsidianWriter.ts)

The writer only ever touches the configured bookmarks folder, so the
filesystem is modelled as that one folder: `none` when the folder does not
exist, otherwise the list of (filename, content) entries.  `Faults`
injects failures of the two filesystem calls whose rejection the writer
surfaces as a WriterError (`mkdir` and `writeFile`; the existence check
and hydration swallow their own exceptions in the source and therefore
cannot fail). -/

def World : Type := Option (List (String × String))

def World.absent : World := (none : Option (List (String × String)))

def World.entries : World → List (String × String)
  | none => []
  | some l => l

/-- `access`-based existence check (`fileExists`): never throws, absent
folder means absent file. -/
def fileExists (w : World) (name : String) : Bool :=
  (World.entries w).any (fun e => e.1 = name)

/-- `mkdir(recursive: true)`. -/
def mkdirRec (w : World) : World :=
  match w with
  | none => some []
  | some l => some l

/-- `writeFile`: create or overwrite. -/
def putFile (w : World) (name content : String) : World :=
  some ((World.entries w).filter (fun e => e.1 ≠ name) ++ [(name, content)])

structure Faults where
  mkdirFail : Bool
  writeFail : Bool
deriving Repr

def noFaults : Faults := ⟨false, false⟩

/-- Add to the JS `Set` (membership-preserving, no duplicates). -/
def addId (c : List String) (id : String) : List String :=
  if id ∈ c then c else c ++ [id]

/-- One folder entry of the hydration scan: non-`.md` files and files
without a regex match are skipped. -/
def hydrateStep (acc : List String) (e : String × String) : List String :=
  if endsWithStr ".md" e.1 then
    match findTweetId e.2 with
    | some id => addId acc id
    | none => acc
  else acc

/-- `loadProcessedTweetIds`: scan the folder's `.md` files and collect the
captured digit groups; an absent folder yields the empty set (the readdir
rejection is swallowed by the source's catch). -/
def loadProcessedTweetIds (w : World) : List String :=
  match w with
  | none => []
  | some entries => entries.foldl hydrateStep []

/-- The module-level cache: `none` models the fresh-process null. -/
def Cache : Type := Option (List String)

def Cache.fresh : Cache := (none : Option (List String))

/-- `ensureCacheLoaded`: hydrate on first use. -/
def ensureCacheLoaded (st : Cache) (w : World) : List String :=
  match st with
  | some c => c
  | none => loadProcessedTweetIds w

/-- `isDuplicate`: lazy hydration followed by a pure cache lookup. -/
def isDuplicate (st : Cache) (w : World) (tweetId : String) : Bool × Cache :=
  let c := ensureCacheLoaded st w
  (decide (tweetId ∈ c), some c)

inductive WriterErr | mkdirErr | writeErr
deriving DecidableEq, Repr

/-- Filename slug: LLM title, falling back to tweet text, falling back to
the raw tweet id (JS `||` on possibly-empty strings). -/
def noteSlug (b : AnalyzedBookmark) : String :=
  if slugify b.title ≠ "" then slugify b.title
  else if slugify b.raw.text ≠ "" then slugify b.raw.text
  else b.raw.tweetId

def noteFilename (b : AnalyzedBookmark) : String := noteSlug b ++ ".md"

/-- The empty-Note sentinel returned for a cache hit. -/
def sentinelNote : ObsidianNote := ⟨"", [], ""⟩

structure WriteOut where
  result : Except WriterErr ObsidianNote
  cache : Cache
  world : World

/-- `write`, step for step:
cache check → slug → existence re-check (divergence heal) → mkdir →
render → write file → cache add. -/
def write (f : Faults) (folder : String) (st : Cache) (w : World)
    (b : AnalyzedBookmark) : WriteOut :=
  let cache := ensureCacheLoaded st w
  if b.raw.tweetId ∈ cache then
    ⟨.ok sentinelNote, some cache, w⟩
  else
    let filename := noteFilename b
    let relativePath := folder ++ "/" ++ filename
    if fileExists w filename then
      ⟨.ok ⟨relativePath, [], ""⟩, some (addId cache b.raw.tweetId), w⟩
    else if f.mkdirFail then
      ⟨.error .mkdirErr, some cache, w⟩
    else
      let w1 := mkdirRec w
      if f.writeFail then
        ⟨.error .writeErr, some cache, w1⟩
      else
        ⟨.ok ⟨relativePath,
              [("source", "x/twitter"), ("tweet_id", b.raw.tweetId)],
              fullContent b⟩,
         some (addId cache b.raw.tweetId),
         putFile w1 filename (fullContent b)⟩

/-! ### The submission endpoint (routes/bookmarks.ts, `handleBookmarks`)

The analyzer is an oracle `RawBookmark → Except String AnalyzedBookmark`
(an `AnalyzerError` or `ClaudeError` carries a message).  Each item runs
dup-check → analyze → write inside a per-item catch that converts any
failure into a failure entry; the fold then continues with the next
item, threading the writer's cache and world. -/

structure BookmarkResult where
  tweetId : String
  success : Bool
  path : Option String
  error : Option String
deriving DecidableEq, Repr

def processOne (analyze : RawBookmark → Except String AnalyzedBookmark)
    (f : Faults) (folder : String) (st : Cache) (w : World)
    (bk : RawBookmark) : BookmarkResult × Cache × World :=
  let dup := isDuplicate st w bk.tweetId
  if dup.1 then
    (⟨bk.tweetId, true, some "", none⟩, dup.2, w)
  else
    match analyze bk with
    | .error msg => (⟨bk.tweetId, false, none, some msg⟩, dup.2, w)
    | .ok analyzed =>
      let out := write f folder dup.2 w analyzed
      match out.result with
      | .ok note => (⟨bk.tweetId, true, some note.path, none⟩, out.cache, out.world)
      | .error e =>
        (⟨bk.tweetId, false, none,
          some (match e with
                | .mkdirErr => "Failed to create directory"
                | .writeErr => "Failed to write file")⟩,
         out.cache, out.world)

def handleBookmarks (analyze : RawBookmark → Except String AnalyzedBookmark)
    (f : Faults) (folder : String) :
    Cache → World → List RawBookmark → List BookmarkResult × Cache × World
  | st, w, [] => ([], st, w)
  | st, w, bk :: rest =>
    let p := processOne analyze f folder st w bk
    let q := handleBookmarks analyze f folder p.2.1 p.2.2 rest
    (p.1 :: q.1, q.2.1, q.2.2)

/-! ### Generation retry (Claude.ts `analyze` + BookmarkAnalyzer.ts parse)

`Effect.retry(Schedule.exponential(1 second) composed with
Schedule.recurs(2))`: at most 2 recurrences, the n-th retry preceded by a
backoff of 1000·2^n ms.  The attempt oracle gives the outcome of the n-th
transport attempt.  Parsing happens once, after the retried call has
produced a transcript. -/

structure GenLog where
  attempts : Nat
  delays : List Nat
  outcome : Except Unit String
deriving Repr

/-- `k` = index of the attempt about to run, `fuel` = retries still
allowed by `Schedule.recurs`. -/
def genRetryLoop (attempt : Nat → Except Unit String) (k : Nat) :
    Nat → GenLog
  | 0 =>
    match attempt k with
    | .ok s => ⟨k + 1, [], .ok s⟩
    | .error e => ⟨k + 1, [], .error e⟩
  | fuel + 1 =>
    match attempt k with
    | .ok s => ⟨k + 1, [], .ok s⟩
    | .error _ =>
      let rest := genRetryLoop attempt (k + 1) fuel
      ⟨rest.attempts, 1000 * 2 ^ k :: rest.delays, rest.outcome⟩

def claudeAnalyze (attempt : Nat → Except Unit String) : GenLog :=
  genRetryLoop attempt 0 2

/-- The analyzer pipeline: retried transport call, then a single parse of
the final response (`JSON.parse` + schema validation modelled as one
fallible oracle). -/
def analyzerAnalyze {α : Type} (attempt : Nat → Except Unit String)
    (parse : String → Except Unit α) : GenLog × Except Unit α :=
  let g := claudeAnalyze attempt
  (g, match g.outcome with
      | .ok s => parse s
      | .error e => .error e)

/-! ### Bookmark removal (content.ts)

The DOM is an oracle: `env id k` is what `findTweetById id` returns at
that identity's k-th DOM query (query 0 is the lookup whose result the
UNBOOKMARK_TWEETS handler passes into `unbookmarkTweet`).  A
`TweetElem` records whether the removeBookmark control is rendered and
whether clicking it is confirmed within the bounded poll. -/

structure TweetElem where
  hasRemoveButton : Bool
  clickConfirms : Bool
deriving DecidableEq, Repr

inductive UbStatus | success | notFound | failed
deriving DecidableEq, Repr

/-- The attempt loop of `unbookmarkTweet` (retries = 2): a vanished
element is assumed already unbookmarked; a missing control retries after a
settle scroll, else reports not_found; a click retries until the poll
confirms, else reports failed. -/
def ubLoop (env : Nat → Option TweetElem) : Nat → Nat → UbStatus
  | _, 0 => .failed
  | attempt, fuel + 1 =>
    match env attempt with
    | none => .success
    | some el =>
      if el.hasRemoveButton then
        if el.clickConfirms then .success
        else if fuel = 0 then .failed
        else ubLoop env (attempt + 1) fuel
      else
        if fuel = 0 then .notFound
        else ubLoop env (attempt + 1) fuel

def unbookmarkTweet (env : Nat → Option TweetElem) : UbStatus :=
  ubLoop env 0 3

structure UbCounts where
  success : Nat
  failed : Nat
deriving DecidableEq, Repr

/-- The UNBOOKMARK_TWEETS handler: per requested identity, a fresh
`findTweetById` lookup; a missing element increments `failed` and
processing continues; otherwise the result of `unbookmarkTweet` is
tallied (success vs everything else). -/
def runUnbookmarkTweets (env : String → Nat → Option TweetElem)
    (tweetIds : List String) : UbCounts :=
  tweetIds.foldl
    (fun acc id =>
      match env id 0 with
      | none => ⟨acc.success, acc.failed + 1⟩
      | some _ =>
        match unbookmarkTweet (env id) with
        | .success => ⟨acc.success + 1, acc.failed⟩
        | _ => ⟨acc.success, acc.failed + 1⟩)
    ⟨0, 0⟩

/-! ### Scraping (content.ts, `scrapeVisibleTweetsWithOptions`)

`scrapeTweet` outcomes per visible DOM element are given as a list of
`Option RawBookmark` (a `null` is a skipped scrape failure).  First
occurrence per identity wins; when the unbookmark option is set the
handler immediately invokes removal on each newly scraped tweet —
`removed` records the identities on which the removal capability was
invoked during scraping. -/

structure ScrapeOut where
  bookmarks : List RawBookmark
  removed : List String
deriving Repr

def scrapeStep (unbook : Bool) (acc : ScrapeOut) :
    Option RawBookmark → ScrapeOut
  | none => acc
  | some bk =>
    if (acc.bookmarks.map RawBookmark.tweetId).contains bk.tweetId then acc
    else
      ⟨acc.bookmarks ++ [bk],
       if unbook then acc.removed ++ [bk.tweetId] else acc.removed⟩

def scrapeVisibleTweetsWithOptions (tweets : List (Option RawBookmark))
    (unbook : Bool) : ScrapeOut :=
  tweets.foldl (scrapeStep unbook) ⟨[], []⟩

/-! ### Orchestration run

Modelled from the spec: the background orchestration state machine
(spec section 4.4) is not among the provided sources — only its popup
observer and the content-script handlers are — so the run is modelled
from the spec's words: scraping invokes the extractor with removal forced
off regardless of the caller's request; the full batch goes to the
submission endpoint; the removal phase, entered only when removal was
requested and at least one item succeeded, is invoked with exactly the
succeeded-identity subset of that send phase's results. -/

structure RunOutcome where
  scrapeRemovals : List String
  results : List BookmarkResult
  removalInvoked : List String

def succeededIds (results : List BookmarkResult) : List String :=
  (results.filter (fun r => r.success)).map (fun r => r.tweetId)

def orchestrate (tweets : List (Option RawBookmark))
    (analyze : RawBookmark → Except String AnalyzedBookmark)
    (f : Faults) (folder : String) (st : Cache) (w : World)
    (unbookmarkRequested : Bool) : RunOutcome :=
  let scr := scrapeVisibleTweetsWithOptions tweets false
  let results := (handleBookmarks analyze f folder st w scr.bookmarks).1
  let succeeded := succeededIds results
  ⟨scr.removed, results,
   if unbookmarkRequested && !succeeded.isEmpty then succeeded else []⟩

/-! ### Concrete records and oracles used by witnesses and
counterexamples -/

/-- The spec's end-to-end example record. -/
def rawA : RawBookmark :=
  .mk "100" "https://x.com/alice/status/100" "alice" "Alice"
    "hello world" "2024-01-15T10:00:00Z" [] none false none []

def bkA : AnalyzedBookmark :=
  ⟨rawA, .standalone, "", ["Greeting"], "Hello World", some "A greeting", none⟩

/-- Two records with distinct identities whose titles collide on the same
slug. -/
def bkColl1 : AnalyzedBookmark :=
  ⟨.mk "1" "u1" "a" "A" "first text" "2024-01-01T00:00:00Z" [] none false none [],
   .standalone, "", [], "Collide", none, none⟩

def bkColl2 : AnalyzedBookmark :=
  ⟨.mk "2" "u2" "b" "B" "second text" "2024-01-02T00:00:00Z" [] none false none [],
   .standalone, "", [], "Collide", none, none⟩

/-- Transport oracle for the C4 witness: fails twice, succeeds on the
third attempt. -/
def claimFourOracle (k : Nat) : Except Unit String :=
  if k < 2 then .error () else .ok "response"

/-- A record whose analysis the demo analyzer rejects. -/
def demoFailRaw : RawBookmark := .mk "1" "u1" "a" "A" "t1" "ts" [] none false none []

def demoAnalyze : RawBookmark → Except String AnalyzedBookmark :=
  fun bk => if bk.tweetId = "1" then .error "analysis failed" else .ok bkA

def demoTweets : List (Option RawBookmark) := [some demoFailRaw, none, some rawA]

/-! ## Sanity checks on the embedding -/

example : slugify "Hello, World!" = "hello-world" := by rfl
example : slugify "  a -  b  " = "-a-b" := by rfl
example : slugify "???" = "" := by rfl
example : slugOk (slugify "Hello, World!") = true := by rfl
example : findTweetId "tweet_id: \"42\"" = some "42" := by rfl
example : findTweetId "x tweet_id:123abc" = some "123" := by rfl
example : findTweetId "tweet_id: \"unknown-99\"" = none := by rfl

/-! ## Lemmas about slugify -/

theorem mem_replaceRunsAux (p : Char → Bool) (r : Char) :
    ∀ (l : List Char) (b : Bool) (c : Char),
      c ∈ replaceRunsAux p r b l → c = r ∨ (c ∈ l ∧ p c = false) := by
  intro l
  induction l with
  | nil => intro b c h; simp [replaceRunsAux] at h
  | cons a t ih =>
    intro b c h
    simp only [replaceRunsAux] at h
    by_cases hpa : p a
    · rw [if_pos hpa] at h
      cases b with
      | true =>
        simp only [if_pos rfl] at h
        rcases ih true c h with h' | ⟨h1, h2⟩
        · exact Or.inl h'
        · exact Or.inr ⟨List.mem_cons_of_mem _ h1, h2⟩
      | false =>
        simp only [Bool.false_eq_true, if_false, List.mem_cons] at h
        rcases h with h | h
        · exact Or.inl h
        · rcases ih true c h with h' | ⟨h1, h2⟩
          · exact Or.inl h'
          · exact Or.inr ⟨List.mem_cons_of_mem _ h1, h2⟩
    · rw [if_neg hpa] at h
      rcases List.mem_cons.mp h with h | h
      · subst h
        exact Or.inr ⟨List.mem_cons_self _ _, by simpa using hpa⟩
      · rcases ih false c h with h' | ⟨h1, h2⟩
        · exact Or.inl h'
        · exact Or.inr ⟨List.mem_cons_of_mem _ h1, h2⟩

/-- The hyphen-collapsing pass produces no adjacent hyphens, and in
run-continuation mode its output never starts with a hyphen. -/
theorem collapse_spec :
    ∀ l : List Char,
      noHyphenRun (replaceRunsAux (fun c => c == '-') '-' false l) = true ∧
      noHyphenRun (replaceRunsAux (fun c => c == '-') '-' true l) = true ∧
      ∀ c, (replaceRunsAux (fun c => c == '-') '-' true l).head? = some c →
        c ≠ '-' := by
  intro l
  induction l with
  | nil => exact ⟨rfl, rfl, by intro c h; simp [replaceRunsAux] at h⟩
  | cons a t ih =>
    obtain ⟨ihf, iht, ihh⟩ := ih
    by_cases ha : a = '-'
    · subst ha
      have hcond : ((('-' : Char) == '-') : Bool) = true := by decide
      refine ⟨?_, ?_, ?_⟩
      · show noHyphenRun (replaceRunsAux (fun c => c == '-') '-' false ('-' :: t)) = true
        simp only [replaceRunsAux, hcond, if_true, Bool.false_eq_true, if_false]
        cases hres : replaceRunsAux (fun c => c == '-') '-' true t with
        | nil => rfl
        | cons c cs =>
          have hc : c ≠ '-' := ihh c (by rw [hres]; rfl)
          have : noHyphenRun (c :: cs) = true := by rw [← hres]; exact iht
          simp [noHyphenRun, hc, this]
      · show noHyphenRun (replaceRunsAux (fun c => c == '-') '-' true ('-' :: t)) = true
        simp only [replaceRunsAux, hcond, if_true]
        exact iht
      · intro c h
        simp only [replaceRunsAux, hcond, if_true] at h
        exact ihh c h
    · have hcond : ((a == '-') : Bool) = false := by
        simp [ha]
      refine ⟨?_, ?_, ?_⟩
      · show noHyphenRun (replaceRunsAux (fun c => c == '-') '-' false (a :: t)) = true
        simp only [replaceRunsAux, hcond, Bool.false_eq_true, if_false]
        cases hres : replaceRunsAux (fun c => c == '-') '-' false t with
        | nil => rfl
        | cons c cs =>
          have : noHyphenRun (c :: cs) = true := by rw [← hres]; exact ihf
          simp [noHyphenRun, hcond, this]
      · show noHyphenRun (replaceRunsAux (fun c => c == '-') '-' true (a :: t)) = true
        simp only [replaceRunsAux, hcond, Bool.false_eq_true, if_false]
        cases hres : replaceRunsAux (fun c => c == '-') '-' false t with
        | nil => rfl
        | cons c cs =>
          have : noHyphenRun (c :: cs) = true := by rw [← hres]; exact ihf
          simp [noHyphenRun, hcond, this]
      · intro c h
        simp only [replaceRunsAux, hcond, Bool.false_eq_true, if_false,
          List.head?] at h
        cases h
        exact ha

theorem noHyphenRun_take :
    ∀ (l : List Char) (n : Nat), noHyphenRun l = true →
      noHyphenRun (l.take n) = true := by
  intro l
  induction l with
  | nil => intro n _; simp [noHyphenRun]
  | cons a t ih =>
    intro n h
    cases n with
    | zero => rfl
    | succ m =>
      cases t with
      | nil => cases m <;> rfl
      | cons b t' =>
        cases m with
        | zero => rfl
        | succ k =>
          have h1 : (!(a == '-' && b == '-')) = true := by
            have := h
            simp only [noHyphenRun, Bool.and_eq_true] at this
            exact this.1
          have h2 : noHyphenRun (b :: t') = true := by
            have := h
            simp only [noHyphenRun, Bool.and_eq_true] at this
            exact this.2
          have h3 := ih (k + 1) h2
          simp only [List.take, noHyphenRun] at h3 ⊢
          simp only [Bool.and_eq_true]
          exact ⟨h1, h3⟩

theorem noHyphenRun_dropLast (l : List Char) (h : noHyphenRun l = true) :
    noHyphenRun l.dropLast = true := by
  rw [List.dropLast_eq_take]
  exact noHyphenRun_take l _ h

theorem noHyphenRun_dropTrailingHyphen (l : List Char)
    (h : noHyphenRun l = true) :
    noHyphenRun (dropTrailingHyphen l) = true := by
  unfold dropTrailingHyphen
  split
  · exact noHyphenRun_dropLast l h
  · exact h

theorem mem_dropTrailingHyphen {l : List Char} {c : Char}
    (h : c ∈ dropTrailingHyphen l) : c ∈ l := by
  unfold dropTrailingHyphen at h
  split at h
  · exact List.dropLast_subset l h
  · exact h

theorem length_dropTrailingHyphen (l : List Char) :
    (dropTrailingHyphen l).length ≤ l.length := by
  unfold dropTrailingHyphen
  split
  · rw [List.length_dropLast]; omega
  · exact Nat.le_refl _

/-- Every character of a slugify output is a lowercase alphanumeric or a
hyphen. -/
theorem slugifyChars_chars (cs : List Char) :
    ∀ c ∈ slugifyChars cs, slugChar c = true := by
  intro c hc
  unfold slugifyChars at hc
  have hc1 : c ∈ (replaceRuns (fun c => c == '-') '-'
      (replaceRuns isWsChar '-' ((cs.map Char.toLower).filter keepChar))).take 50 :=
    mem_dropTrailingHyphen hc
  have hc2 := List.take_subset _ _ hc1
  rcases mem_replaceRunsAux _ _ _ _ _ hc2 with h | ⟨h1, _⟩
  · subst h; rfl
  · rcases mem_replaceRunsAux _ _ _ _ _ h1 with h | ⟨h3, h4⟩
    · subst h; rfl
    · have hk : keepChar c = true := List.of_mem_filter h3
      unfold keepChar at hk
      rw [h4] at hk
      unfold slugChar
      simp only [Bool.or_false, Bool.or_eq_true] at hk ⊢
      tauto

/-- Every output of `slugify` is a well-formed slug: lowercase
alphanumerics and hyphens only, no adjacent hyphens, at most 50
characters. -/
theorem slugOk_slugify (s : String) : slugOk (slugify s) = true := by
  have hdata : (slugify s).data = slugifyChars s.data := rfl
  unfold slugOk
  rw [hdata]
  refine (Bool.and_eq_true _ _).mpr ⟨(Bool.and_eq_true _ _).mpr ⟨?_, ?_⟩, ?_⟩
  · exact List.all_eq_true.mpr (slugifyChars_chars s.data)
  · unfold slugifyChars
    exact noHyphenRun_dropTrailingHyphen _
      (noHyphenRun_take _ 50 (collapse_spec _).1)
  · refine decide_eq_true ?_
    unfold slugifyChars
    calc (dropTrailingHyphen ((replaceRuns (fun c => c == '-') '-'
            (replaceRuns isWsChar '-'
              ((s.data.map Char.toLower).filter keepChar))).take 50)).length
        ≤ ((replaceRuns (fun c => c == '-') '-'
            (replaceRuns isWsChar '-'
              ((s.data.map Char.toLower).filter keepChar))).take 50).length :=
          length_dropTrailingHyphen _
      _ ≤ 50 := by rw [List.length_take]; omega

/-! ## Claim theorems -/

/-- **C8.** For every record written, the note filename slug is computed
from the record's title, falling back to the slugified body text, falling
back to the raw identity; and the slug is lowercase, contains only
alphanumerics and hyphens, has hyphen runs collapsed, and is at most 50
characters long (for the raw-identity fallback this requires the identity
itself to be slug-shaped, which holds for every extractor-produced
identity: a digit string or a lowercase time-based placeholder). -/
theorem claim8_filename_slug (b : AnalyzedBookmark)
    (hid : slugOk b.raw.tweetId = true) :
    (slugify b.title ≠ "" → noteSlug b = slugify b.title)
    ∧ (slugify b.title = "" → slugify b.raw.text ≠ "" →
        noteSlug b = slugify b.raw.text)
    ∧ (slugify b.title = "" → slugify b.raw.text = "" →
        noteSlug b = b.raw.tweetId)
    ∧ slugOk (noteSlug b) = true
    ∧ noteFilename b = noteSlug b ++ ".md" := by
  refine ⟨?_, ?_, ?_, ?_, rfl⟩
  · intro h; unfold noteSlug; rw [if_pos h]
  · intro h1 h2; unfold noteSlug; rw [if_neg (by simp [h1]), if_pos h2]
  · intro h1 h2; unfold noteSlug
    rw [if_neg (by simp [h1]), if_neg (by simp [h2])]
  · unfold noteSlug
    by_cases h1 : slugify b.title ≠ ""
    · rw [if_pos h1]; exact slugOk_slugify _
    · rw [if_neg h1]
      by_cases h2 : slugify b.raw.text ≠ ""
      · rw [if_pos h2]; exact slugOk_slugify _
      · rw [if_neg h2]; exact hid

/-- Witness for C8 at the spec's end-to-end example record. -/
theorem claim8_witness :
    slugOk "100" = true ∧ noteSlug bkA = "hello-world" ∧
    slugOk (noteSlug bkA) = true := by
  have h := claim8_filename_slug bkA (by decide)
  refine ⟨by decide, ?_, h.2.2.2.1⟩
  have := h.1 (by decide)
  rw [this]
  decide

/-- Evaluation of the first `write` in a fresh process over an absent
folder: it hydrates an empty cache, finds no existing file, creates the
folder, writes the rendered note and caches the identity. -/
theorem write_fresh_eval (folder : String) (b : AnalyzedBookmark) :
    write noFaults folder Cache.fresh World.absent b =
      ⟨.ok ⟨folder ++ "/" ++ noteFilename b,
            [("source", "x/twitter"), ("tweet_id", b.raw.tweetId)],
            fullContent b⟩,
       some [b.raw.tweetId],
       some [(noteFilename b, fullContent b)]⟩ := by
  simp [write, ensureCacheLoaded, Cache.fresh, World.absent,
    loadProcessedTweetIds, fileExists, World.entries, mkdirRec, putFile,
    noFaults, addId]

/-- **C2.** Calling `write` twice with the same identity in one process
yields exactly one durable note: the first call persists the rendered
note, the second call returns the empty-Note sentinel, performs no new
persistence (the world is unchanged), and the note created by the first
call is exactly the single stored file. -/
theorem claim2_write_idempotent (folder : String) (b b' : AnalyzedBookmark)
    (hid : b'.raw.tweetId = b.raw.tweetId) :
    (write noFaults folder Cache.fresh World.absent b).result =
      .ok ⟨folder ++ "/" ++ noteFilename b,
           [("source", "x/twitter"), ("tweet_id", b.raw.tweetId)],
           fullContent b⟩
    ∧ (write noFaults folder
         (write noFaults folder Cache.fresh World.absent b).cache
         (write noFaults folder Cache.fresh World.absent b).world
         b').result = .ok sentinelNote
    ∧ (write noFaults folder
         (write noFaults folder Cache.fresh World.absent b).cache
         (write noFaults folder Cache.fresh World.absent b).world
         b').world =
       (write noFaults folder Cache.fresh World.absent b).world
    ∧ World.entries (write noFaults folder Cache.fresh World.absent b).world =
       [(noteFilename b, fullContent b)] := by
  rw [write_fresh_eval]
  refine ⟨rfl, ?_, ?_, rfl⟩
  · simp [write, ensureCacheLoaded, hid]
  · simp [write, ensureCacheLoaded, hid]

/-- Witness for C2 at the example record. -/
theorem claim2_witness :
    (write noFaults "Bookmarks"
       (write noFaults "Bookmarks" Cache.fresh World.absent bkA).cache
       (write noFaults "Bookmarks" Cache.fresh World.absent bkA).world
       bkA).result = .ok sentinelNote
    ∧ World.entries
        (write noFaults "Bookmarks" Cache.fresh World.absent bkA).world =
      [(noteFilename bkA, fullContent bkA)] := by
  have h := claim2_write_idempotent "Bookmarks" bkA bkA rfl
  exact ⟨h.2.1, h.2.2.2⟩

theorem fileExists_mkdirRec (w : World) (n : String) :
    fileExists (mkdirRec w) n = fileExists w n := by
  cases w <;> rfl

/-- **C6.** Whenever `write` fails with a WriterError (directory-creation
fault or file-write fault; hydration swallows its own exceptions in the
source and cannot fault), the dedup cache is exactly the hydrated cache —
the record's identity was not added — and an immediate fault-free retry of
the same record from the post-failure state succeeds and persists the
note. -/
theorem claim6_fault_leaves_cache (f : Faults) (folder : String)
    (st : Cache) (w : World) (b : AnalyzedBookmark) (e : WriterErr)
    (herr : (write f folder st w b).result = .error e) :
    (write f folder st w b).cache = some (ensureCacheLoaded st w)
    ∧ b.raw.tweetId ∉ ensureCacheLoaded st w
    ∧ (write noFaults folder (write f folder st w b).cache
        (write f folder st w b).world b).result =
      .ok ⟨folder ++ "/" ++ noteFilename b,
           [("source", "x/twitter"), ("tweet_id", b.raw.tweetId)],
           fullContent b⟩ := by
  have key :
      b.raw.tweetId ∉ ensureCacheLoaded st w
      ∧ fileExists w (noteFilename b) = false
      ∧ (write f folder st w b =
           ⟨.error .mkdirErr, some (ensureCacheLoaded st w), w⟩
         ∨ write f folder st w b =
           ⟨.error .writeErr, some (ensureCacheLoaded st w), mkdirRec w⟩) := by
    by_cases h1 : b.raw.tweetId ∈ ensureCacheLoaded st w
    · exfalso; unfold write at herr; simp [h1] at herr
    · by_cases h2 : fileExists w (noteFilename b)
      · exfalso; unfold write at herr; simp [h1, h2] at herr
      · by_cases h3 : f.mkdirFail
        · refine ⟨h1, by simpa using h2, Or.inl ?_⟩
          unfold write; simp [h1, h2, h3]
        · by_cases h4 : f.writeFail
          · refine ⟨h1, by simpa using h2, Or.inr ?_⟩
            unfold write; simp [h1, h2, h3, h4]
          · exfalso; unfold write at herr; simp [h1, h2, h3, h4] at herr
  obtain ⟨h1, h2, hcase⟩ := key
  have hload : ∀ (c : List String) (w' : World),
      ensureCacheLoaded (some c) w' = c := fun _ _ => rfl
  rcases hcase with hw | hw
  · rw [hw]
    refine ⟨rfl, h1, ?_⟩
    unfold write
    rw [hload]
    simp [h1, h2, noFaults]
  · rw [hw]
    refine ⟨rfl, h1, ?_⟩
    unfold write
    rw [hload]
    dsimp only
    rw [fileExists_mkdirRec]
    simp [h1, h2, noFaults]

/-- Witness for C6: a file-write fault on the example record, followed by
a clean retry. -/
theorem claim6_witness :
    (write ⟨false, true⟩ "Bookmarks" Cache.fresh World.absent bkA).cache =
      some []
    ∧ (write noFaults "Bookmarks"
         (write ⟨false, true⟩ "Bookmarks" Cache.fresh World.absent bkA).cache
         (write ⟨false, true⟩ "Bookmarks" Cache.fresh World.absent bkA).world
         bkA).result =
      .ok ⟨"Bookmarks" ++ "/" ++ noteFilename bkA,
           [("source", "x/twitter"), ("tweet_id", "100")],
           fullContent bkA⟩ := by
  have h := claim6_fault_leaves_cache ⟨false, true⟩ "Bookmarks"
    Cache.fresh World.absent bkA .writeErr (by rfl)
  exact ⟨h.1, h.2.2⟩

/-- **C7, counterexample.** Two categorized records with distinct
identities but colliding filename slugs: writing both persists only ONE
durable note — the second record is treated as a duplicate of the first
by the filesystem existence check, refuting "for any two categorized
records with distinct identities, writing both persists two durable
notes". -/
theorem claim7_counterexample :
    bkColl1.raw.tweetId ≠ bkColl2.raw.tweetId
    ∧ (World.entries (write noFaults "Bookmarks"
         (write noFaults "Bookmarks" Cache.fresh World.absent bkColl1).cache
         (write noFaults "Bookmarks" Cache.fresh World.absent bkColl1).world
         bkColl2).world).length = 1
    ∧ (write noFaults "Bookmarks"
         (write noFaults "Bookmarks" Cache.fresh World.absent bkColl1).cache
         (write noFaults "Bookmarks" Cache.fresh World.absent bkColl1).world
         bkColl2).result =
       .ok ⟨"Bookmarks" ++ "/" ++ noteFilename bkColl2, [], ""⟩ := by
  refine ⟨by decide, by rfl, by rfl⟩

/-- **C7, amended.** Identity is the dedup key except on filename
collision: writing two records from a fresh state persists two durable
notes exactly when both their identities and their computed filenames
differ; a shared identity or a shared filename leaves a single note.  In
the two-note case each note embeds its own record. -/
theorem claim7_amended_dedup_key (folder : String)
    (b1 b2 : AnalyzedBookmark) :
    (World.entries (write noFaults folder
        (write noFaults folder Cache.fresh World.absent b1).cache
        (write noFaults folder Cache.fresh World.absent b1).world
        b2).world).length =
      (if noteFilename b1 = noteFilename b2 ∨ b1.raw.tweetId = b2.raw.tweetId
       then 1 else 2)
    ∧ (noteFilename b1 ≠ noteFilename b2 → b1.raw.tweetId ≠ b2.raw.tweetId →
        World.entries (write noFaults folder
          (write noFaults folder Cache.fresh World.absent b1).cache
          (write noFaults folder Cache.fresh World.absent b1).world
          b2).world =
        [(noteFilename b1, fullContent b1), (noteFilename b2, fullContent b2)])
    ∧ (b1.raw.tweetId = b2.raw.tweetId →
        World.entries (write noFaults folder
          (write noFaults folder Cache.fresh World.absent b1).cache
          (write noFaults folder Cache.fresh World.absent b1).world
          b2).world = [(noteFilename b1, fullContent b1)]) := by
  rw [write_fresh_eval]
  dsimp only
  have hload : ∀ (c : List String) (w' : World),
      ensureCacheLoaded (some c) w' = c := fun _ _ => rfl
  by_cases hid : b2.raw.tweetId = b1.raw.tweetId
  · have : write noFaults folder (some [b1.raw.tweetId])
        (some [(noteFilename b1, fullContent b1)]) b2 =
        ⟨.ok sentinelNote, some [b1.raw.tweetId],
         some [(noteFilename b1, fullContent b1)]⟩ := by
      unfold write
      rw [hload]
      simp [hid]
    rw [this]
    refine ⟨?_, ?_, ?_⟩
    · simp [World.entries, hid]
    · intro _ hne; exact absurd hid.symm hne
    · intro _; rfl
  · by_cases hfn : noteFilename b1 = noteFilename b2
    · have : write noFaults folder (some [b1.raw.tweetId])
          (some [(noteFilename b1, fullContent b1)]) b2 =
          ⟨.ok ⟨folder ++ "/" ++ noteFilename b2, [], ""⟩,
           some [b1.raw.tweetId, b2.raw.tweetId],
           some [(noteFilename b1, fullContent b1)]⟩ := by
        unfold write
        rw [hload]
        simp [hid, fileExists, World.entries, hfn, addId]
      rw [this]
      refine ⟨?_, ?_, ?_⟩
      · simp [World.entries, hfn]
      · intro hne; exact absurd hfn hne
      · intro h; exact absurd h.symm hid
    · have : write noFaults folder (some [b1.raw.tweetId])
          (some [(noteFilename b1, fullContent b1)]) b2 =
          ⟨.ok ⟨folder ++ "/" ++ noteFilename b2,
                [("source", "x/twitter"), ("tweet_id", b2.raw.tweetId)],
                fullContent b2⟩,
           some [b1.raw.tweetId, b2.raw.tweetId],
           some [(noteFilename b1, fullContent b1),
                 (noteFilename b2, fullContent b2)]⟩ := by
        unfold write
        rw [hload]
        simp [hid, fileExists, World.entries, hfn, addId, noFaults,
          mkdirRec, putFile, Ne.symm hfn]
      rw [this]
      refine ⟨?_, ?_, ?_⟩
      · simp [World.entries, hfn, Ne.symm hid]
      · intro _ _; rfl
      · intro h; exact absurd h.symm hid

/-! Hydration membership lemmas. -/

theorem mem_addId_self (acc : List String) (id : String) :
    id ∈ addId acc id := by
  unfold addId
  split
  · assumption
  · exact List.mem_append_right _ (List.mem_singleton_self id)

theorem mem_addId_of_mem {acc : List String} {id : String} (x : String)
    (h : id ∈ acc) : id ∈ addId acc x := by
  unfold addId
  split
  · exact h
  · exact List.mem_append_left _ h

theorem mem_hydrateStep_of_mem {acc : List String} {id : String}
    (e : String × String) (h : id ∈ acc) : id ∈ hydrateStep acc e := by
  unfold hydrateStep
  split
  · split
    · exact mem_addId_of_mem _ h
    · exact h
  · exact h

theorem mem_foldl_hydrateStep_of_mem :
    ∀ (entries : List (String × String)) (acc : List String) (id : String),
      id ∈ acc → id ∈ entries.foldl hydrateStep acc := by
  intro entries
  induction entries with
  | nil => intro acc id h; exact h
  | cons e t ih =>
    intro acc id h
    exact ih _ _ (mem_hydrateStep_of_mem e h)

/-- A `.md` file whose content matches the tweet_id pattern contributes
its captured identity to the hydrated cache. -/
theorem mem_hydrate_of_file :
    ∀ (entries : List (String × String)) (acc : List String)
      (name content id : String),
      (name, content) ∈ entries → endsWithStr ".md" name = true →
      findTweetId content = some id →
      id ∈ entries.foldl hydrateStep acc := by
  intro entries
  induction entries with
  | nil => intro acc name content id h _ _; cases h
  | cons e t ih =>
    intro acc name content id hmem hmd hfind
    rcases List.mem_cons.mp hmem with h | h
    · subst h
      refine mem_foldl_hydrateStep_of_mem t _ id ?_
      unfold hydrateStep
      rw [if_pos hmd, hfind]
      exact mem_addId_self _ _
    · exact ih _ name content id h hmd hfind

/-- **C5.** In a fresh process whose destination folder already contains
a note embedding identity "42", `isDuplicate "42"` reports true without
any prior `write` call in that process; and if the destination folder is
absent, lazy hydration yields an empty cache rather than an error
(`isDuplicate` then reports false for every identity). -/
theorem claim5_cache_self_heal (entries : List (String × String))
    (name content : String) (hmem : (name, content) ∈ entries)
    (hmd : endsWithStr ".md" name = true)
    (hfind : findTweetId content = some "42") :
    (isDuplicate Cache.fresh (some entries) "42").1 = true
    ∧ loadProcessedTweetIds World.absent = []
    ∧ ∀ id, (isDuplicate Cache.fresh World.absent id).1 = false := by
  refine ⟨?_, rfl, ?_⟩
  · unfold isDuplicate ensureCacheLoaded Cache.fresh
    simp only [loadProcessedTweetIds]
    exact decide_eq_true
      (mem_hydrate_of_file entries [] name content "42" hmem hmd hfind)
  · intro id
    unfold isDuplicate ensureCacheLoaded Cache.fresh World.absent
    simp [loadProcessedTweetIds]

/-- Witness for C5: a folder holding one rendered note embedding "42". -/
theorem claim5_witness :
    (isDuplicate Cache.fresh
      (some [("note.md", "---\ntweet_id: \"42\"\n---")]) "42").1 = true
    ∧ ∀ id, (isDuplicate Cache.fresh World.absent id).1 = false := by
  have h := claim5_cache_self_heal
    [("note.md", "---\ntweet_id: \"42\"\n---")]
    "note.md" "---\ntweet_id: \"42\"\n---"
    (List.mem_singleton_self _) (by decide) (by rfl)
  exact ⟨h.1, h.2.2⟩

/-! Digit-only extraction lemmas for C10. -/

theorem matchTweetIdAt_digits {cs ds : List Char}
    (h : matchTweetIdAt cs = some ds) :
    ds ≠ [] ∧ ∀ c ∈ ds, isDigitChar c = true := by
  unfold matchTweetIdAt at h
  split at h
  · dsimp only at h
    split at h
    · cases h
    · rename_i hemp
      cases h
      refine ⟨?_, ?_⟩
      · intro hcon
        exact hemp (by rw [hcon]; rfl)
      · intro c hc
        exact List.mem_takeWhile_imp hc
  · cases h

theorem scanTweetId_digits :
    ∀ (l ds : List Char), scanTweetId l = some ds →
      ds ≠ [] ∧ ∀ c ∈ ds, isDigitChar c = true := by
  intro l
  induction l with
  | nil => intro ds h; cases h
  | cons c t ih =>
    intro ds h
    unfold scanTweetId at h
    split at h
    · cases h
      exact matchTweetIdAt_digits ‹_›
    · exact ih ds h

theorem findTweetId_digits {content id : String}
    (h : findTweetId content = some id) :
    id ≠ "" ∧ id.data.all isDigitChar = true := by
  unfold findTweetId at h
  cases hscan : scanTweetId content.data with
  | none => rw [hscan] at h; cases h
  | some ds =>
    rw [hscan] at h
    cases h
    obtain ⟨hne, hdig⟩ := scanTweetId_digits _ _ hscan
    constructor
    · intro hcon
      exact hne (congrArg String.data hcon)
    · exact List.all_eq_true.mpr hdig

/-- Every identity in the hydrated cache is a nonempty digit string. -/
theorem hydrate_all_digits :
    ∀ (entries : List (String × String)) (acc : List String)
      (id : String),
      (∀ x ∈ acc, x ≠ "" ∧ x.data.all isDigitChar = true) →
      id ∈ entries.foldl hydrateStep acc →
      id ≠ "" ∧ id.data.all isDigitChar = true := by
  intro entries
  induction entries with
  | nil => intro acc id hacc h; exact hacc id h
  | cons e t ih =>
    intro acc id hacc h
    refine ih _ id ?_ h
    intro x hx
    unfold hydrateStep at hx
    split at hx
    · split at hx
      · rename_i hfind
        unfold addId at hx
        split at hx
        · exact hacc x hx
        · rcases List.mem_append.mp hx with h' | h'
          · exact hacc x h'
          · rw [List.mem_singleton.mp h']
            exact findTweetId_digits hfind
      · exact hacc x hx
    · exact hacc x hx

/-- **C10.** Cache hydration extracts only all-digit identities: any
identity containing a non-digit character (such as the synthesized
placeholder `unknown-<timestamp>`) is never added to the dedup cache, so
a fresh-process `isDuplicate` reports false for it even when a note on
disk embeds it. -/
theorem claim10_digit_only_hydration (w : World) (id : String)
    (hnd : id.data.all isDigitChar = false) :
    id ∉ loadProcessedTweetIds w
    ∧ (isDuplicate Cache.fresh w id).1 = false := by
  have hnotmem : id ∉ loadProcessedTweetIds w := by
    intro hmem
    cases w with
    | none => cases hmem
    | some entries =>
      have := hydrate_all_digits entries [] id (by intro x hx; cases hx)
        (by simpa [loadProcessedTweetIds] using hmem)
      rw [this.2] at hnd
      cases hnd
  refine ⟨hnotmem, ?_⟩
  unfold isDuplicate ensureCacheLoaded Cache.fresh
  simpa using hnotmem

/-- Witness for C10: a note embedding the placeholder identity
`unknown-99` exists on disk, yet the fresh-process duplicate check denies
it. -/
theorem claim10_witness :
    fileExists (some [("note.md", "---\ntweet_id: \"unknown-99\"\n---")])
      "note.md" = true
    ∧ (isDuplicate Cache.fresh
        (some [("note.md", "---\ntweet_id: \"unknown-99\"\n---")])
        "unknown-99").1 = false :=
  ⟨by decide,
   (claim10_digit_only_hydration
      (some [("note.md", "---\ntweet_id: \"unknown-99\"\n---")])
      "unknown-99" (by decide)).2⟩

/-! Per-item processing lemmas for C3. -/

theorem processOne_tweetId (analyze : RawBookmark → Except String AnalyzedBookmark)
    (f : Faults) (folder : String) (st : Cache) (w : World)
    (bk : RawBookmark) :
    (processOne analyze f folder st w bk).1.tweetId = bk.tweetId := by
  unfold processOne
  dsimp only
  split
  · rfl
  · split
    · rfl
    · split <;> rfl

theorem processOne_error (analyze : RawBookmark → Except String AnalyzedBookmark)
    (f : Faults) (folder : String) (st : Cache) (w : World)
    (bk : RawBookmark) :
    (processOne analyze f folder st w bk).1.success = false →
    (processOne analyze f folder st w bk).1.error.isSome = true := by
  unfold processOne
  dsimp only
  split
  · intro h; simp at h
  · split
    · intro _; rfl
    · split
      · intro h; simp at h
      · intro _; rfl

/-- **C3.** For every submission batch that passes schema validation, the
endpoint returns exactly one result per input item, in submission order
(the i-th result carries the i-th input's identity); a per-item analysis
or write failure becomes a failure entry (success flag false plus an
error message) and never aborts processing of the remaining items — the
fold is total and every item contributes its entry regardless of earlier
faults. -/
theorem claim3_per_item_isolation
    (analyze : RawBookmark → Except String AnalyzedBookmark)
    (f : Faults) (folder : String) :
    ∀ (bs : List RawBookmark) (st : Cache) (w : World),
      (handleBookmarks analyze f folder st w bs).1.length = bs.length
      ∧ (∀ i : Nat,
          ((handleBookmarks analyze f folder st w bs).1[i]?).map
              (fun r => r.tweetId) =
            (bs[i]?).map (fun b => b.tweetId))
      ∧ (∀ r ∈ (handleBookmarks analyze f folder st w bs).1,
          r.success = false → r.error.isSome = true)
      ∧ (∀ (st' : Cache) (w' : World) (bk : RawBookmark) (msg : String),
          (isDuplicate st' w' bk.tweetId).1 = false →
          analyze bk = .error msg →
          (processOne analyze f folder st' w' bk).1 =
            ⟨bk.tweetId, false, none, some msg⟩) := by
  intro bs
  have hfail : ∀ (st' : Cache) (w' : World) (bk : RawBookmark) (msg : String),
      (isDuplicate st' w' bk.tweetId).1 = false →
      analyze bk = .error msg →
      (processOne analyze f folder st' w' bk).1 =
        ⟨bk.tweetId, false, none, some msg⟩ := by
    intro st' w' bk msg hdup hana
    unfold processOne
    dsimp only
    rw [hdup, hana]
    rfl
  induction bs with
  | nil =>
    intro st w
    refine ⟨rfl, ?_, ?_, hfail⟩
    · intro i; rfl
    · intro r hr; cases hr
  | cons bk t ih =>
    intro st w
    simp only [handleBookmarks]
    obtain ⟨ihlen, ihidx, iherr, _⟩ :=
      ih (processOne analyze f folder st w bk).2.1
         (processOne analyze f folder st w bk).2.2
    refine ⟨?_, ?_, ?_, hfail⟩
    · simp [ihlen]
    · intro i
      cases i with
      | zero => simp [processOne_tweetId]
      | succ n => simpa using ihidx n
    · intro r hr
      rcases List.mem_cons.mp hr with h | h
      · subst h
        exact processOne_error analyze f folder st w bk
      · exact iherr r h

/-- Witness for C3: a two-item batch whose first item fails analysis and
whose second is persisted; both report, in order, and the failing item's
entry carries the failure flag plus the analyzer's message. -/
theorem claim3_witness :
    (handleBookmarks demoAnalyze noFaults "Bookmarks" Cache.fresh
       World.absent [demoFailRaw, rawA]).1.length = 2
    ∧ (processOne demoAnalyze noFaults "Bookmarks" Cache.fresh
         World.absent demoFailRaw).1 =
      ⟨"1", false, none, some "analysis failed"⟩
    ∧ (⟨"1", false, none, some "analysis failed"⟩ :
        BookmarkResult).error.isSome = true := by
  have h := claim3_per_item_isolation demoAnalyze noFaults "Bookmarks"
    [demoFailRaw, rawA] Cache.fresh World.absent
  refine ⟨h.1, ?_, ?_⟩
  · exact h.2.2.2 Cache.fresh World.absent demoFailRaw "analysis failed"
      (by rfl) (by rfl)
  · refine h.2.2.1 ⟨"1", false, none, some "analysis failed"⟩ ?_ rfl
    have hres : (handleBookmarks demoAnalyze noFaults "Bookmarks"
        Cache.fresh World.absent [demoFailRaw, rawA]).1 =
        [⟨"1", false, none, some "analysis failed"⟩,
         ⟨"100", true, some ("Bookmarks" ++ "/" ++ noteFilename bkA), none⟩] := by
      rfl
    rw [hres]
    exact List.mem_cons_self _ _

/-- **C4.** The generation transcript is produced by the retried
transport call alone — a parse failure triggers no further attempt and no
backoff — and the transport call makes at most 3 attempts (2 retries),
each retry preceded by an exponential backoff of 1000 ms, then 2000 ms;
only a transport failure triggers a retry, a first-attempt success ends
the loop after one attempt with no backoff, and only full exhaustion
(all 3 attempts failing) surfaces the transport error. -/
theorem claim4_retry_backoff {α : Type}
    (attempt : Nat → Except Unit String) (parse : String → Except Unit α) :
    (analyzerAnalyze attempt parse).1 = claudeAnalyze attempt
    ∧ (claudeAnalyze attempt).attempts ≤ 3
    ∧ (claudeAnalyze attempt).delays =
        (List.range ((claudeAnalyze attempt).attempts - 1)).map
          (fun k => 1000 * 2 ^ k)
    ∧ (∀ k, k + 1 < (claudeAnalyze attempt).attempts →
        ∃ e, attempt k = .error e)
    ∧ (∀ s, attempt 0 = .ok s →
        (claudeAnalyze attempt).attempts = 1
        ∧ (claudeAnalyze attempt).delays = [])
    ∧ (∀ e, (claudeAnalyze attempt).outcome = .error e →
        (claudeAnalyze attempt).attempts = 3) := by
  refine ⟨rfl, ?_⟩
  cases h0 : attempt 0 with
  | ok s0 =>
    have hG : claudeAnalyze attempt = ⟨1, [], .ok s0⟩ := by
      simp [claudeAnalyze, genRetryLoop, h0]
    rw [hG]
    dsimp only
    refine ⟨by norm_num, by decide, ?_, ?_, ?_⟩
    · intro k hk; exact absurd hk (by omega)
    · intro s' _; exact ⟨rfl, rfl⟩
    · intro e h; cases h
  | error e0 =>
    cases h1 : attempt 1 with
    | ok s1 =>
      have hG : claudeAnalyze attempt = ⟨2, [1000], .ok s1⟩ := by
        simp [claudeAnalyze, genRetryLoop, h0, h1]
      rw [hG]
      dsimp only
      refine ⟨by norm_num, by decide, ?_, ?_, ?_⟩
      · intro k hk
        have : k = 0 := by omega
        subst this
        exact ⟨e0, h0⟩
      · intro s' h0'; simp [h0] at h0'
      · intro e h; cases h
    | error e1 =>
      cases h2 : attempt 2 with
      | ok s2 =>
        have hG : claudeAnalyze attempt = ⟨3, [1000, 2000], .ok s2⟩ := by
          simp [claudeAnalyze, genRetryLoop, h0, h1, h2]
        rw [hG]
        dsimp only
        refine ⟨by norm_num, by decide, ?_, ?_, ?_⟩
        · intro k hk
          match k, hk with
          | 0, _ => exact ⟨e0, h0⟩
          | 1, _ => exact ⟨e1, h1⟩
        · intro s' h0'; simp [h0] at h0'
        · intro e h; cases h
      | error e2 =>
        have hG : claudeAnalyze attempt = ⟨3, [1000, 2000], .error e2⟩ := by
          simp [claudeAnalyze, genRetryLoop, h0, h1, h2]
        rw [hG]
        dsimp only
        refine ⟨by norm_num, by decide, ?_, ?_, ?_⟩
        · intro k hk
          match k, hk with
          | 0, _ => exact ⟨e0, h0⟩
          | 1, _ => exact ⟨e1, h1⟩
        · intro s' h0'; simp [h0] at h0'
        · intro _ _; rfl

/-- Witness for C4: the transport oracle failing twice then succeeding,
with a parse oracle that always fails — the spec's retry/backoff
scenario. -/
theorem claim4_witness :
    (claudeAnalyze claimFourOracle).attempts = 3
    ∧ (claudeAnalyze claimFourOracle).delays = [1000, 2000]
    ∧ (∃ e, claimFourOracle 0 = .error e)
    ∧ (analyzerAnalyze claimFourOracle
        (fun _ => (.error () : Except Unit Unit))).1 =
      claudeAnalyze claimFourOracle := by
  have h := claim4_retry_backoff claimFourOracle
    (fun _ => (.error () : Except Unit Unit))
  have hatt : (claudeAnalyze claimFourOracle).attempts = 3 := by decide
  refine ⟨hatt, ?_, ?_, h.1⟩
  · have hd := h.2.2.1
    rw [hatt] at hd
    exact hd.trans (by decide)
  · exact h.2.2.2.1 0 (by rw [hatt]; norm_num)

/-- Every requested identity is tallied exactly once by the
UNBOOKMARK_TWEETS handler. -/
theorem runUnbookmarkTweets_total (env : String → Nat → Option TweetElem) :
    ∀ (ids : List String) (acc : UbCounts),
      (ids.foldl
        (fun acc id =>
          match env id 0 with
          | none => ⟨acc.success, acc.failed + 1⟩
          | some _ =>
            match unbookmarkTweet (env id) with
            | .success => ⟨acc.success + 1, acc.failed⟩
            | _ => ⟨acc.success, acc.failed + 1⟩)
        acc).success +
      (ids.foldl
        (fun acc id =>
          match env id 0 with
          | none => ⟨acc.success, acc.failed + 1⟩
          | some _ =>
            match unbookmarkTweet (env id) with
            | .success => ⟨acc.success + 1, acc.failed⟩
            | _ => ⟨acc.success, acc.failed + 1⟩)
        acc).failed = acc.success + acc.failed + ids.length := by
  intro ids
  induction ids with
  | nil => intro acc; simp
  | cons id t ih =>
    intro acc
    simp only [List.foldl_cons, List.length_cons]
    cases henv : env id 0 with
    | none => rw [ih]; dsimp only; omega
    | some el =>
      cases hub : unbookmarkTweet (env id) with
      | success => rw [ih]; dsimp only; omega
      | notFound => rw [ih]; dsimp only; omega
      | failed => rw [ih]; dsimp only; omega

/-- **C9, counterexample.** An identity whose element is absent at the
handler's initial fresh lookup is reported as a FAILURE (failed = 1,
success = 0), refuting "when the element is not found the removal of
that identity is reported as success ... never as failure". -/
theorem claim9_counterexample :
    runUnbookmarkTweets (fun _ _ => none) ["7"] = ⟨0, 1⟩ := by rfl

/-- **C9, amended.** Every identity requested for removal is re-located
by a fresh lookup; inside `unbookmarkTweet`'s retry loop a vanished
element is reported as success (treated as already-removed), but an
identity whose element is not found by the handler's initial lookup is
counted as failed, not success; a located element whose control confirms
is a success; and every requested identity is tallied exactly once. -/
theorem claim9_amended_notfound (env : String → Nat → Option TweetElem)
    (id : String) :
    (env id 0 = none → runUnbookmarkTweets env [id] = ⟨0, 1⟩)
    ∧ (∀ el, env id 0 = some el → el.hasRemoveButton = true →
        el.clickConfirms = false → env id 1 = none →
        unbookmarkTweet (env id) = .success)
    ∧ (∀ el, env id 0 = some el → el.hasRemoveButton = true →
        el.clickConfirms = true → runUnbookmarkTweets env [id] = ⟨1, 0⟩)
    ∧ (∀ ids : List String,
        (runUnbookmarkTweets env ids).success +
          (runUnbookmarkTweets env ids).failed = ids.length) := by
  refine ⟨?_, ?_, ?_, ?_⟩
  · intro h
    simp [runUnbookmarkTweets, h]
  · intro el h0 hbtn hcc h1
    unfold unbookmarkTweet ubLoop
    rw [h0]
    simp only [hbtn, hcc, if_true, Bool.false_eq_true, if_false]
    norm_num
    unfold ubLoop
    rw [h1]
  · intro el h0 hbtn hcc
    unfold runUnbookmarkTweets
    simp only [List.foldl_cons, List.foldl_nil]
    rw [h0]
    have : unbookmarkTweet (env id) = .success := by
      unfold unbookmarkTweet ubLoop
      rw [h0]
      simp [hbtn, hcc]
    rw [this]
  · intro ids
    have h := runUnbookmarkTweets_total env ids ⟨0, 0⟩
    simpa [runUnbookmarkTweets] using h

/-- Witness for C9 (amended): an absent element is tallied failed; an
element vanishing at the retry is a success. -/
theorem claim9_witness :
    runUnbookmarkTweets (fun _ _ => none) ["9"] = ⟨0, 1⟩
    ∧ unbookmarkTweet
        (fun k => if k = 0 then some ⟨true, false⟩ else none) = .success := by
  constructor
  · exact (claim9_amended_notfound (fun _ _ => none) "9").1 rfl
  · exact (claim9_amended_notfound
      (fun _ k => if k = 0 then some ⟨true, false⟩ else none) "9").2.1
      ⟨true, false⟩ rfl rfl rfl rfl

/-! C1: orchestration run. -/

/-- With the unbookmark option off, the scrape loop invokes the removal
capability on no identity. -/
theorem scrape_no_removal_when_off :
    ∀ (tweets : List (Option RawBookmark)) (acc : ScrapeOut),
      (tweets.foldl (scrapeStep false) acc).removed = acc.removed := by
  intro tweets
  induction tweets with
  | nil => intro acc; rfl
  | cons t ts ih =>
    intro acc
    simp only [List.foldl_cons]
    rw [ih]
    cases t with
    | none => rfl
    | some bk =>
      unfold scrapeStep
      dsimp only
      split
      · rfl
      · simp

/-- **C1.** In an orchestration run (modelled from the spec over the
embedded scrape, submission and removal components): the scraping phase
invokes the removal capability on no identity regardless of the caller's
request (removal is forced off during scraping, so no bookmark is
retracted before its note is durably written), and the removal phase is
invoked with exactly the succeeded-identity subset of the same run's send
results — every identity handed to removal has a send result reporting
success, never a failed or unattempted identity. -/
theorem claim1_removal_gating (tweets : List (Option RawBookmark))
    (analyze : RawBookmark → Except String AnalyzedBookmark)
    (f : Faults) (folder : String) (st : Cache) (w : World) (req : Bool) :
    (orchestrate tweets analyze f folder st w req).scrapeRemovals = []
    ∧ ((orchestrate tweets analyze f folder st w req).removalInvoked =
         succeededIds (orchestrate tweets analyze f folder st w req).results
       ∨ (orchestrate tweets analyze f folder st w req).removalInvoked = [])
    ∧ (∀ id ∈ (orchestrate tweets analyze f folder st w req).removalInvoked,
        ∃ r ∈ (orchestrate tweets analyze f folder st w req).results,
          r.tweetId = id ∧ r.success = true) := by
  unfold orchestrate
  dsimp only
  refine ⟨?_, ?_, ?_⟩
  · exact scrape_no_removal_when_off tweets ⟨[], []⟩
  · split
    · exact Or.inl rfl
    · exact Or.inr rfl
  · intro id hid
    split at hid
    · unfold succeededIds at hid
      rcases List.mem_map.mp hid with ⟨r, hr, hrid⟩
      rcases List.mem_filter.mp hr with ⟨hrmem, hrsucc⟩
      exact ⟨r, hrmem, hrid, by simpa using hrsucc⟩
    · cases hid

/-- Witness for C1: in the demo run with removal requested, scraping
retracts nothing and the identity handed to removal ("100") has a
succeeded send result. -/
theorem claim1_witness :
    (orchestrate demoTweets demoAnalyze noFaults "Bookmarks"
       Cache.fresh World.absent true).scrapeRemovals = []
    ∧ ∃ r ∈ (orchestrate demoTweets demoAnalyze noFaults "Bookmarks"
        Cache.fresh World.absent true).results,
        r.tweetId = "100" ∧ r.success = true := by
  have h := claim1_removal_gating demoTweets demoAnalyze noFaults
    "Bookmarks" Cache.fresh World.absent true
  refine ⟨h.1, h.2.2 "100" ?_⟩
  have : (orchestrate demoTweets demoAnalyze noFaults "Bookmarks"
      Cache.fresh World.absent true).removalInvoked = ["100"] := by rfl
  rw [this]
  exact List.mem_singleton_self _

/-- Witness for C7 (amended) at two non-colliding records. -/
theorem claim7_witness :
    World.entries (write noFaults "Bookmarks"
      (write noFaults "Bookmarks" Cache.fresh World.absent bkColl1).cache
      (write noFaults "Bookmarks" Cache.fresh World.absent bkColl1).world
      bkA).world =
    [(noteFilename bkColl1, fullContent bkColl1),
     (noteFilename bkA, fullContent bkA)] :=
  (claim7_amended_dedup_key "Bookmarks" bkColl1 bkA).2.1 (by decide) (by decide)

end XObs
